import Mathlib

/-!
Verification development for the `fxdemo` HTTP server (`src/main.go`).

The program is a small Go HTTP server built with the fx dependency-injection
container.  Its core pieces, embedded shallowly below:

* `EchoHandler.ServeHTTP` — copies the request body verbatim to the response;
  on an I/O error it logs a warning and returns.
* `HelloHandler.ServeHTTP` — reads the whole body, writes `"Hello, {body}\n"`;
  on a read or write error it logs and answers with
  `http.Error(w, "Internal server error", 500)`.
* `NewServeMux` — folds `mux.Handle(route.Pattern(), route)` over the supplied
  routes.  `net/http.ServeMux.Handle` (standard library) panics on an empty
  pattern and on a second registration of the same pattern; the panic is
  embedded as an `Except.error`.
* the `fx.Hook` of `NewHTTPServer` — `OnStart` binds a listener, logs and
  spawns the accept loop only on success; `OnStop` delegates to
  `http.Server.Shutdown`.

Bodies are byte sequences (`List Nat`), patterns and paths are character
sequences (`List Char`).  Effects (bytes written to the response, log calls,
whether the accept goroutine was started) are made explicit in the result
types.  Standard-library collaborators (`io.Copy`, `http.Error`,
`ServeMux.Handle`, pattern matching of `ServeMux`, `Server.Shutdown`) are
embedded from their Go source/documented behaviour, since the repository
calls into them and their behaviour decides several spec sentences.
-/

/-- Severity of a zap log call in `main.go` (`log.Info`, `log.Warn`, `log.Error`). -/
inductive LogLevel
  | info
  | warn
  | error
  deriving DecidableEq, Repr

/-- One log call: severity plus the constant message string passed in the source. -/
structure LogEntry where
  level : LogLevel
  msg : String
  deriving DecidableEq, Repr

/-- A Go `error` value, carrying its message (`err.Error()`).  Opaque to the
handlers: they never inspect it, only forward it to the logger. -/
structure IOErr where
  msg : String
  deriving DecidableEq, Repr

/-- State of an `http.ResponseWriter`: the status line already sent (if any)
and the bytes written so far.  `net/http` sends status 200 implicitly on the
first `Write` if `WriteHeader` was not called. -/
structure RespState where
  status : Option Nat
  body : List Nat
  deriving DecidableEq, Repr

/-- A fresh `ResponseWriter`: no header sent, nothing written. -/
def emptyResp : RespState := { status := none, body := [] }

/-- Effect of a successful `Write` of `bs` on a `ResponseWriter`:
the first nonempty write commits status 200 if no header was sent yet
(`net/http` semantics); the bytes are appended.  `io.Copy` issues no write
for an empty source, so an empty chunk leaves the state untouched. -/
def writeBytes (w : RespState) (bs : List Nat) : RespState :=
  if bs.isEmpty then w
  else { status := some (w.status.getD 200), body := w.body ++ bs }

/-- `http.Error(w, msg, code)` (standard library): `WriteHeader(code)` —
a no-op if a header was already sent — followed by `Fprintln(w, msg)`,
which appends the message and a newline. -/
def httpError (w : RespState) (msg : List Nat) (code : Nat) : RespState :=
  { status := some (w.status.getD code), body := w.body ++ msg ++ [10] }

/-- Status the client observes when the handler returns: the committed one,
or 200 if the handler wrote neither header nor body (`net/http` sends 200
at handler return). -/
def finalStatus (w : RespState) : Nat := w.status.getD 200

/-- Bytes of an ASCII string, for the literal texts in `main.go`. -/
def asciiBytes (s : String) : List Nat := s.toList.map Char.toNat

/-- The `"Hello, "` bytes that `fmt.Fprintf(w, "Hello, %s\n", body)` puts in
front of the body. -/
def helloHead : List Nat := asciiBytes "Hello, "

/-- The full bytes `fmt.Fprintf(w, "Hello, %s\n", body)` produces:
`"Hello, " ++ body ++ "\n"` (byte 10 is the newline). -/
def helloGreeting (body : List Nat) : List Nat := helloHead ++ body ++ [10]

/-- Body written by `http.Error(w, "Internal server error", 500)`. -/
def internalServerError : List Nat := asciiBytes "Internal server error"

/-- The bytes of a Go string: its UTF-8 encoding (`[]byte(s)`). -/
def strBytes (s : String) : List Nat :=
  s.toList.flatMap (fun c => (String.utf8EncodeChar c).map UInt8.toNat)

/-- Outcome of `io.Copy(w, r.Body)` as seen by `EchoHandler.ServeHTTP`:
`none` — the whole body was read and written without error;
`some (k, e)` — after `k` bytes were copied to `w`, a read or write failed
with error `e` (io.Copy returns the first error; a prefix may be written). -/
def CopyOutcome : Type := Option (Nat × IOErr)

/-- `EchoHandler.ServeHTTP` (src/main.go:90-94), shallow embedding.
`body` is the request body, `outcome` the behaviour of `io.Copy` on this
exchange, `w` the response writer.  Returns the final writer state and the
log calls made:

    if _, err := io.Copy(w, r.Body); err != nil {
        h.log.Warn("Failed to handle request", zap.Error(err))
    }
-/
def EchoHandler.ServeHTTP (body : List Nat) (outcome : Option (Nat × IOErr))
    (w : RespState) : RespState × List LogEntry :=
  match outcome with
  | none => (writeBytes w body, [])
  | some (k, _e) =>
      (writeBytes w (body.take k),
       [⟨LogLevel.warn, "Failed to handle request"⟩])

/-- `HelloHandler.ServeHTTP` (src/main.go:97-109), shallow embedding.
`readRes` is the outcome of `io.ReadAll(r.Body)`; `writeFail` is `none` when
the single `Write` issued by `fmt.Fprintf` succeeds, and `some (k, e)` when
it fails after `k` bytes reached the connection (net/http commits the 200
header before attempting the write):

    body, err := io.ReadAll(r.Body)
    if err != nil {
        h.log.Error("Failed to read request", zap.Error(err))
        http.Error(w, "Internal server error", http.StatusInternalServerError)
        return
    }
    if _, err := fmt.Fprintf(w, "Hello, %s\n", body); err != nil {
        h.log.Error("Failed to write response", zap.Error(err))
        http.Error(w, "Internal server error", http.StatusInternalServerError)
        return
    }
-/
def HelloHandler.ServeHTTP (readRes : Except IOErr (List Nat))
    (writeFail : Option (Nat × IOErr)) (w : RespState) :
    RespState × List LogEntry :=
  match readRes with
  | Except.error _e =>
      (httpError w internalServerError 500,
       [⟨LogLevel.error, "Failed to read request"⟩])
  | Except.ok body =>
      match writeFail with
      | none => (writeBytes w (helloGreeting body), [])
      | some (k, _e) =>
          let w1 : RespState :=
            { status := some (w.status.getD 200),
              body := w.body ++ (helloGreeting body).take k }
          (httpError w1 internalServerError 500,
           [⟨LogLevel.error, "Failed to write response"⟩])

example : EchoHandler.ServeHTTP (asciiBytes "hi") none emptyResp
    = ({ status := some 200, body := asciiBytes "hi" }, []) := by decide

example : HelloHandler.ServeHTTP (Except.ok (asciiBytes "world")) none emptyResp
    = ({ status := some 200, body := asciiBytes "Hello, world\n" }, []) := by decide

/-!  ## Router: `Route`, `NewServeMux` and `net/http.ServeMux`  -/

/-- A `Route` (src/main.go:58-61): an `http.Handler` together with the mux
pattern under which it registers.  The handler payload is kept polymorphic;
for the concrete application it is instantiated with `AppHandler`. -/
structure Route (H : Type) where
  pattern : List Char
  handler : H
  deriving DecidableEq, Repr

/-- The registrations of a `net/http.ServeMux`: the `(pattern, handler)`
pairs accepted by `Handle`, in registration order. -/
structure ServeMux (H : Type) where
  regs : List (List Char × H)
  deriving DecidableEq, Repr

/-- The two ways `net/http.ServeMux.Handle` panics that are reachable from
`NewServeMux`: an empty pattern, or a pattern registered twice. -/
inductive MuxPanic
  | invalidPattern
  | multipleRegistrations (pattern : List Char)
  deriving DecidableEq, Repr

/-- `net/http.ServeMux.Handle` (standard library), with its panics embedded
as errors:

    if pattern == "" { panic("http: invalid pattern") }
    if _, exist := mux.m[pattern]; exist {
        panic("http: multiple registrations for " + pattern)
    }
    ... (store the entry)
-/
def ServeMux.Handle (mux : ServeMux H) (pattern : List Char) (h : H) :
    Except MuxPanic (ServeMux H) :=
  if pattern.isEmpty then Except.error MuxPanic.invalidPattern
  else if mux.regs.any (fun r => r.1 = pattern) then
    Except.error (MuxPanic.multipleRegistrations pattern)
  else Except.ok ⟨mux.regs ++ [(pattern, h)]⟩

/-- `NewServeMux` (src/main.go:135-141): start from `http.NewServeMux()` and
`mux.Handle(route.Pattern(), route)` for each supplied route, in order.
A panic from `Handle` aborts the construction (`Except.error`). -/
def NewServeMux (routes : List (Route H)) : Except MuxPanic (ServeMux H) :=
  routes.foldlM (fun mux route => mux.Handle route.pattern route.handler) ⟨[]⟩

/-- `pathMatch(pattern, path)` of `net/http` (standard library): an empty
pattern matches nothing; a pattern not ending in `'/'` matches exactly its
own path; a pattern ending in `'/'` matches every path it is a prefix of. -/
def pathMatch (pattern path : List Char) : Bool :=
  match pattern.getLast? with
  | none => false
  | some c => if c = '/' then pattern.isPrefixOf path else pattern == path

/-- Handler selection of `net/http.ServeMux` for a path: the standard library
first tries an exact hit on the registered patterns and then scans the
patterns ending in `'/'` in order of decreasing length for a prefix match.
Both steps together select a registration of maximal pattern length among
those whose pattern `pathMatch`es the path (an exact hit has the maximal
possible length; ties are impossible because two matching patterns of equal
length are equal, and `Handle` rejects duplicates).  This function computes
that selection, keeping the earlier registration on (unreachable) ties. -/
def findHandler (regs : List (List Char × H)) (path : List Char) :
    Option (List Char × H) :=
  match regs with
  | [] => none
  | r :: rs =>
      match findHandler rs path with
      | none => if pathMatch r.1 path then some r else none
      | some b =>
          if pathMatch r.1 path then
            if b.1.length ≤ r.1.length then some r else some b
          else some b

/-- Body the standard library `NotFoundHandler` writes
(`http.Error(w, "404 page not found", 404)`). -/
def notFoundBody : List Nat := asciiBytes "404 page not found" ++ [10]

/-- Response of the default `NotFoundHandler`: status 404. -/
def notFoundResponse : Nat × List Nat := (404, notFoundBody)

/-- `ServeHTTP` of a `net/http.ServeMux`, one level up from the handlers:
dispatch the path; if no pattern matches, answer with the standard
`NotFoundHandler` (404); otherwise run the selected handler (`run` gives the
response each handler produces on this exchange). -/
def ServeMux.serve (mux : ServeMux H) (run : H → Nat × List Nat)
    (path : List Char) : Nat × List Nat :=
  match findHandler mux.regs path with
  | none => notFoundResponse
  | some r => run r.2

/-- The handler selected by the mux for a path, `none` when the request
falls through to the 404 handler. -/
def ServeMux.dispatch (mux : ServeMux H) (path : List Char) : Option H :=
  (findHandler mux.regs path).map Prod.snd

example : NewServeMux ([] : List (Route Nat)) = Except.ok ⟨[]⟩ := rfl

example :
    NewServeMux [Route.mk "/echo".toList 0, Route.mk "/echo".toList 1]
      = Except.error (MuxPanic.multipleRegistrations "/echo".toList) := rfl

example :
    (NewServeMux [Route.mk "/echo".toList 0, Route.mk "/hello".toList 1]).map
      (fun m => m.dispatch "/hello".toList) = Except.ok (some 1) := rfl

/-!  ## Server lifecycle: the `fx.Hook` of `NewHTTPServer`  -/

/-- What the `OnStart` hook did: the error it returned to fx (if any), the
log calls it made, and whether `go srv.Serve(ln)` was launched. -/
structure StartOutcome where
  returned : Option IOErr
  logs : List LogEntry
  accepting : Bool
  deriving DecidableEq, Repr

/-- The `OnStart` hook of `NewHTTPServer` (src/main.go:39-47).
`listenRes` is the outcome of `net.Listen("tcp", srv.Addr)`:

    ln, err := net.Listen("tcp", srv.Addr)
    if err != nil {
        return err
    }
    log.Info("Starting HTTP server", zap.String("addr", srv.Addr))
    go srv.Serve(ln)
    return nil
-/
def OnStart (listenRes : Except IOErr Unit) : StartOutcome :=
  match listenRes with
  | Except.error e => { returned := some e, logs := [], accepting := false }
  | Except.ok _ =>
      { returned := none,
        logs := [⟨LogLevel.info, "Starting HTTP server"⟩],
        accepting := true }

/-- Running/stopped state of the `http.Server` as far as the lifecycle claims
observe it: whether it still accepts new connections. -/
structure SrvState where
  acceptingNew : Bool
  deriving DecidableEq, Repr

/-- The part of the stop context and in-flight situation that
`http.Server.Shutdown` reacts to: whether the in-flight requests drained
before the context was done, and the context's error otherwise. -/
structure ShutdownCtx where
  drained : Bool
  ctxErr : IOErr
  deriving DecidableEq, Repr

/-- `http.Server.Shutdown(ctx)` (standard library, documented contract):
immediately stops accepting new connections, waits for in-flight requests;
returns `nil` when they drain before the context is done and the context's
error otherwise. -/
def Server.Shutdown (_s : SrvState) (ctx : ShutdownCtx) :
    SrvState × Option IOErr :=
  ({ acceptingNew := false }, if ctx.drained then none else some ctx.ctxErr)

/-- The `OnStop` hook of `NewHTTPServer` (src/main.go:48-50):

    OnStop: func(ctx context.Context) error {
        return srv.Shutdown(ctx)
    }
-/
def OnStop (s : SrvState) (ctx : ShutdownCtx) : SrvState × Option IOErr :=
  Server.Shutdown s ctx

/-!  ## The concrete application (`main`, src/main.go:15-32)

`main` provides `AsRoute(NewEchoHandler)` and `AsRoute(NewHelloHandler)` to
the `"routes"` group, which fx hands to `NewServeMux` as a slice.  The two
handlers declare the constant patterns `"/echo"` and `"/hello"`
(src/main.go:112-119). -/

/-- The handlers `main` registers, as payloads for the mux model. -/
inductive AppHandler
  | echo
  | hello
  deriving DecidableEq, Repr

/-- `(*EchoHandler).Pattern()` (src/main.go:112-114). -/
def EchoHandler.Pattern : List Char := "/echo".toList

/-- `(*HelloHandler).Pattern()` (src/main.go:117-119). -/
def HelloHandler.Pattern : List Char := "/hello".toList

/-- The `"routes"` group slice of `main`: the echo route and the hello
route. -/
def appRoutes : List (Route AppHandler) :=
  [⟨EchoHandler.Pattern, AppHandler.echo⟩, ⟨HelloHandler.Pattern, AppHandler.hello⟩]

/-- The mux `NewServeMux` builds for `main`'s routes. -/
def appMux : ServeMux AppHandler :=
  ⟨[(EchoHandler.Pattern, AppHandler.echo), (HelloHandler.Pattern, AppHandler.hello)]⟩

example : NewServeMux appRoutes = Except.ok appMux := rfl

/-!  ## Lemmas: `NewServeMux` construction  -/

/-- Success characterisation of one `Handle` call. -/
theorem ServeMux.Handle_ok {H : Type} {mux mux' : ServeMux H} {p : List Char} {h : H}
    (hh : mux.Handle p h = Except.ok mux') :
    p ≠ [] ∧ p ∉ mux.regs.map Prod.fst ∧ mux'.regs = mux.regs ++ [(p, h)] := by
  unfold ServeMux.Handle at hh
  split_ifs at hh with h1 h2
  refine ⟨by simpa using h1, ?_, ?_⟩
  · intro hmem
    rcases List.mem_map.1 hmem with ⟨r, hr, hfst⟩
    exact h2 (List.any_eq_true.2 ⟨r, hr, by simp [hfst]⟩)
  · injection hh with h3
    rw [← h3]

/-- The step function folded by `NewServeMux`. -/
def handleStep {H : Type} (mux : ServeMux H) (route : Route H) :
    Except MuxPanic (ServeMux H) :=
  mux.Handle route.pattern route.handler

theorem newServeMux_eq_foldl {H : Type} (routes : List (Route H)) :
    NewServeMux routes = routes.foldlM handleStep ⟨[]⟩ := rfl

/-- What a successful fold of `Handle` proves: the final registrations are the
initial ones followed by the routes in order, the supplied patterns are
pairwise distinct, and none of them was already registered. -/
theorem foldl_Handle_ok {H : Type} :
    ∀ (routes : List (Route H)) (mux m : ServeMux H),
      routes.foldlM handleStep mux = Except.ok m →
      m.regs = mux.regs ++ routes.map (fun r => (r.pattern, r.handler))
        ∧ (routes.map Route.pattern).Nodup
        ∧ ∀ r ∈ routes, r.pattern ∉ mux.regs.map Prod.fst := by
  intro routes
  induction routes with
  | nil =>
      intro mux m hm
      simp only [List.foldlM_nil, pure, Except.pure, Except.ok.injEq] at hm
      subst hm
      refine ⟨by rw [List.map_nil, List.append_nil], ?_, ?_⟩
      · rw [List.map_nil]; exact List.nodup_nil
      · intro r hr; exact absurd hr (List.not_mem_nil r)
  | cons r rs ih =>
      intro mux m hm
      rw [List.foldlM_cons] at hm
      cases hh : handleStep mux r with
      | error e => rw [hh] at hm; exact absurd hm (by simp [Bind.bind, Except.bind])
      | ok mux' =>
          rw [hh] at hm
          simp only [Bind.bind, Except.bind] at hm
          obtain ⟨hp_ne, hp_nin, hregs⟩ := ServeMux.Handle_ok hh
          obtain ⟨hm_regs, hnd, hnin⟩ := ih mux' m hm
          have hfst : mux'.regs.map Prod.fst = mux.regs.map Prod.fst ++ [r.pattern] := by
            rw [hregs]; simp
          refine ⟨?_, ?_, ?_⟩
          · rw [hm_regs, hregs]
            simp
          · rw [List.map_cons, List.nodup_cons]
            refine ⟨?_, hnd⟩
            intro hmem
            rcases List.mem_map.1 hmem with ⟨r', hr', hpat⟩
            have := hnin r' hr'
            rw [hfst] at this
            exact this (List.mem_append_right _ (by simp [hpat]))
          · intro r' hr'
            rcases List.mem_cons.1 hr' with h | h
            · rw [h]; exact hp_nin
            · have := hnin r' h
              rw [hfst] at this
              intro hc
              exact this (List.mem_append_left _ hc)

/-- A successfully built mux registers exactly the supplied routes, each at
its own pattern, in order. -/
theorem NewServeMux_ok_regs {H : Type} {routes : List (Route H)} {m : ServeMux H}
    (hm : NewServeMux routes = Except.ok m) :
    m.regs = routes.map (fun r => (r.pattern, r.handler)) := by
  rw [newServeMux_eq_foldl] at hm
  simpa using (foldl_Handle_ok routes ⟨[]⟩ m hm).1

/-- A successfully built mux has pairwise-distinct patterns. -/
theorem NewServeMux_ok_nodup {H : Type} {routes : List (Route H)} {m : ServeMux H}
    (hm : NewServeMux routes = Except.ok m) :
    (routes.map Route.pattern).Nodup := by
  rw [newServeMux_eq_foldl] at hm
  exact (foldl_Handle_ok routes ⟨[]⟩ m hm).2.1

/-- Conversely: nonempty, pairwise-distinct patterns make every `Handle`
call succeed. -/
theorem foldl_Handle_ok_of_nodup {H : Type} :
    ∀ (routes : List (Route H)) (mux : ServeMux H),
      (∀ r ∈ routes, r.pattern ≠ []) →
      (routes.map Route.pattern).Nodup →
      (∀ r ∈ routes, r.pattern ∉ mux.regs.map Prod.fst) →
      routes.foldlM handleStep mux
        = Except.ok ⟨mux.regs ++ routes.map (fun r => (r.pattern, r.handler))⟩ := by
  intro routes
  induction routes with
  | nil => intro mux _ _ _; simp [List.foldlM_nil, pure, Except.pure]
  | cons r rs ih =>
      intro mux hne hnd hnin
      rw [List.foldlM_cons]
      have hstep : handleStep mux r = Except.ok ⟨mux.regs ++ [(r.pattern, r.handler)]⟩ := by
        unfold handleStep ServeMux.Handle
        rw [if_neg, if_neg]
        · intro hany
          rcases List.any_eq_true.1 hany with ⟨p, hp, he⟩
          exact hnin r (List.mem_cons_self r rs)
            (List.mem_map.2 ⟨p, hp, of_decide_eq_true he⟩)
        · simp [hne r (List.mem_cons_self r rs)]
      rw [hstep]
      simp only [Bind.bind, Except.bind]
      have hres := ih ⟨mux.regs ++ [(r.pattern, r.handler)]⟩
        (fun r' hr' => hne r' (List.mem_cons_of_mem r hr'))
        (by rw [List.map_cons, List.nodup_cons] at hnd; exact hnd.2)
        ?_
      · rw [hres]
        simp
      · intro r' hr'
        intro hc
        simp only [List.map_append] at hc
        rcases List.mem_append.1 hc with h | h
        · exact hnin r' (List.mem_cons_of_mem r hr') h
        · rw [List.map_cons, List.nodup_cons] at hnd
          simp only [List.map_cons, List.map_nil, List.mem_cons, List.not_mem_nil,
            or_false] at h
          exact hnd.1 (List.mem_map.2 ⟨r', hr', h⟩)

/-- `NewServeMux` succeeds on nonempty, pairwise-distinct patterns and
registers exactly the supplied routes. -/
theorem NewServeMux_ok_of_nodup {H : Type} {routes : List (Route H)}
    (hne : ∀ r ∈ routes, r.pattern ≠ [])
    (hnd : (routes.map Route.pattern).Nodup) :
    NewServeMux routes
      = Except.ok ⟨routes.map (fun r => (r.pattern, r.handler))⟩ := by
  rw [newServeMux_eq_foldl]
  simpa using foldl_Handle_ok_of_nodup routes ⟨[]⟩ hne hnd (by simp)

/-- A duplicated pattern makes `NewServeMux` fail. -/
theorem NewServeMux_error_of_dup {H : Type} {routes : List (Route H)}
    (hdup : ¬(routes.map Route.pattern).Nodup) :
    ∃ e, NewServeMux routes = Except.error e := by
  cases h : NewServeMux routes with
  | error e => exact ⟨e, rfl⟩
  | ok m => exact absurd (NewServeMux_ok_nodup h) hdup

/-!  ## Lemmas: `pathMatch` and `findHandler`  -/

/-- A matching pattern is an initial segment of the path. -/
theorem pathMatch_pref {p path : List Char} (h : pathMatch p path = true) :
    p <+: path := by
  cases hl : p.getLast? with
  | none => simp only [pathMatch, hl] at h; cases h
  | some c =>
      simp only [pathMatch, hl] at h
      by_cases hc : c = '/'
      · rw [if_pos hc] at h
        exact List.isPrefixOf_iff_prefix.1 h
      · rw [if_neg hc] at h
        have hp : p = path := by simpa using h
        rw [hp]

/-- Two patterns matching the same path and of equal length coincide. -/
theorem pathMatch_eq_of_length {p₁ p₂ path : List Char}
    (h₁ : pathMatch p₁ path = true) (h₂ : pathMatch p₂ path = true)
    (hlen : p₁.length = p₂.length) : p₁ = p₂ :=
  (List.prefix_of_prefix_length_le (pathMatch_pref h₁) (pathMatch_pref h₂)
    (le_of_eq hlen)).eq_of_length hlen

/-- `findHandler` answers `none` only when no registration matches. -/
theorem findHandler_none_forward {H : Type} (path : List Char) :
    ∀ regs : List (List Char × H), findHandler regs path = none →
      ∀ r ∈ regs, pathMatch r.1 path = false := by
  intro regs
  induction regs with
  | nil => intro _ r hr; exact absurd hr (List.not_mem_nil r)
  | cons q rs ih =>
      intro h r hr
      simp only [findHandler] at h
      cases hfr : findHandler rs path with
      | none =>
          simp only [hfr] at h
          by_cases hm : pathMatch q.1 path = true
          · rw [if_pos hm] at h; cases h
          · rcases List.mem_cons.1 hr with hq | hrs
            · rw [hq]; simpa using hm
            · exact ih hfr r hrs
      | some b =>
          simp only [hfr] at h
          by_cases hm : pathMatch q.1 path = true
          · rw [if_pos hm] at h
            by_cases hl : b.1.length ≤ q.1.length
            · rw [if_pos hl] at h; cases h
            · rw [if_neg hl] at h; cases h
          · rw [if_neg hm] at h; cases h

/-- Conversely, `findHandler` answers `none` when no registration matches. -/
theorem findHandler_none_reverse {H : Type} (path : List Char) :
    ∀ regs : List (List Char × H),
      (∀ r ∈ regs, pathMatch r.1 path = false) → findHandler regs path = none := by
  intro regs
  induction regs with
  | nil => intro _; rfl
  | cons q rs ih =>
      intro h
      have hq := h q (List.mem_cons_self q rs)
      have hrs := ih fun r hr => h r (List.mem_cons_of_mem q hr)
      simp [findHandler, hrs, hq]

/-- The registration `findHandler` selects: it is one of the registrations,
it matches the path, and its pattern is of maximal length among the matching
ones. -/
theorem findHandler_mem {H : Type} (path : List Char) :
    ∀ (regs : List (List Char × H)) (r : List Char × H),
      findHandler regs path = some r →
      r ∈ regs ∧ pathMatch r.1 path = true ∧
        ∀ r' ∈ regs, pathMatch r'.1 path = true → r'.1.length ≤ r.1.length := by
  intro regs
  induction regs with
  | nil => intro r h; exact absurd h (by simp [findHandler])
  | cons q rs ih =>
      intro r h
      simp only [findHandler] at h
      cases hfr : findHandler rs path with
      | none =>
          simp only [hfr] at h
          by_cases hm : pathMatch q.1 path = true
          · rw [if_pos hm] at h
            injection h with h
            subst h
            refine ⟨List.mem_cons_self q rs, hm, ?_⟩
            intro r' hr' hm'
            rcases List.mem_cons.1 hr' with hq | hrs
            · rw [hq]
            · rw [findHandler_none_forward path rs hfr r' hrs] at hm'
              cases hm'
          · rw [if_neg hm] at h; cases h
      | some b =>
          simp only [hfr] at h
          obtain ⟨hbmem, hbmatch, hbmax⟩ := ih b hfr
          by_cases hm : pathMatch q.1 path = true
          · rw [if_pos hm] at h
            by_cases hl : b.1.length ≤ q.1.length
            · rw [if_pos hl] at h
              injection h with h
              subst h
              refine ⟨List.mem_cons_self q rs, hm, ?_⟩
              intro r' hr' hm'
              rcases List.mem_cons.1 hr' with hq | hrs
              · rw [hq]
              · exact le_trans (hbmax r' hrs hm') hl
            · rw [if_neg hl] at h
              injection h with h
              subst h
              refine ⟨List.mem_cons_of_mem q hbmem, hbmatch, ?_⟩
              intro r' hr' hm'
              rcases List.mem_cons.1 hr' with hq | hrs
              · rw [hq]; exact le_of_lt (lt_of_not_le hl)
              · exact hbmax r' hrs hm'
          · rw [if_neg hm] at h
            injection h with h
            subst h
            refine ⟨List.mem_cons_of_mem q hbmem, hbmatch, ?_⟩
            intro r' hr' hm'
            rcases List.mem_cons.1 hr' with hq | hrs
            · rw [hq] at hm'; exact absurd hm' hm
            · exact hbmax r' hrs hm'

/-- Under distinct patterns, the handler a mux selects for a path does not
depend on the registration order. -/
theorem findHandler_perm {H : Type} {regs₁ regs₂ : List (List Char × H)}
    (hperm : regs₁.Perm regs₂) (hnd : (regs₁.map Prod.fst).Nodup)
    (path : List Char) :
    findHandler regs₁ path = findHandler regs₂ path := by
  cases h1 : findHandler regs₁ path with
  | none =>
      cases h2 : findHandler regs₂ path with
      | none => rfl
      | some r =>
          obtain ⟨hmem, hmatch, _⟩ := findHandler_mem path regs₂ r h2
          have hfalse := findHandler_none_forward path regs₁ h1 r (hperm.symm.subset hmem)
          rw [hmatch] at hfalse
          cases hfalse
  | some r =>
      cases h2 : findHandler regs₂ path with
      | none =>
          obtain ⟨hmem, hmatch, _⟩ := findHandler_mem path regs₁ r h1
          have hfalse := findHandler_none_forward path regs₂ h2 r (hperm.subset hmem)
          rw [hmatch] at hfalse
          cases hfalse
      | some r' =>
          obtain ⟨hmem1, hmatch1, hmax1⟩ := findHandler_mem path regs₁ r h1
          obtain ⟨hmem2, hmatch2, hmax2⟩ := findHandler_mem path regs₂ r' h2
          have hmem2' : r' ∈ regs₁ := hperm.symm.subset hmem2
          have hmem1' : r ∈ regs₂ := hperm.subset hmem1
          have hlen : r.1.length = r'.1.length :=
            le_antisymm (hmax2 r hmem1' hmatch1) (hmax1 r' hmem2' hmatch2)
          have hpat : r.1 = r'.1 := pathMatch_eq_of_length hmatch1 hmatch2 hlen
          rw [List.inj_on_of_nodup_map hnd hmem1 hmem2' hpat]

/-!  ## The claims  -/

/-- C1.  For every byte sequence `B`, a request to `/echo` with body `B` that
reads and writes without I/O error yields a response whose body is exactly
`B`, with success status 200.  The mux built by `NewServeMux` dispatches
`/echo` to the echo handler, and `EchoHandler.ServeHTTP` with a successful
`io.Copy` leaves the response body equal to `B`, observed status 200
(committed by the first write, or implicit at handler return for an empty
body), and logs nothing. -/
theorem claim_C1_echo_identity (B : List Nat) :
    appMux.dispatch EchoHandler.Pattern = some AppHandler.echo
      ∧ finalStatus (EchoHandler.ServeHTTP B none emptyResp).1 = 200
      ∧ (EchoHandler.ServeHTTP B none emptyResp).1.body = B
      ∧ (EchoHandler.ServeHTTP B none emptyResp).2 = [] := by
  refine ⟨by decide, ?_, ?_, rfl⟩ <;>
    cases B <;> simp [EchoHandler.ServeHTTP, writeBytes, finalStatus, emptyResp]

/-- C2.  For every text string `S`, a request to `/hello` with body `S` that
reads and writes without I/O error yields a response whose body is exactly
`"Hello, " ++ S ++ "\n"`, with success status 200.  `S` enters the handler
as its UTF-8 bytes (`strBytes`), the mux dispatches `/hello` to the hello
handler, and `fmt.Fprintf` produces exactly the greeting. -/
theorem claim_C2_hello_greeting (S : String) :
    appMux.dispatch HelloHandler.Pattern = some AppHandler.hello
      ∧ HelloHandler.ServeHTTP (Except.ok (strBytes S)) none emptyResp
          = ({ status := some 200, body := helloHead ++ strBytes S ++ [10] }, [])
      ∧ finalStatus (HelloHandler.ServeHTTP (Except.ok (strBytes S)) none emptyResp).1
          = 200 :=
  ⟨by decide, rfl, rfl⟩

/-- C3.  For every collection of handlers containing two handlers whose
`Pattern()` strings are equal (two positions of the pattern list carry the
same string), `NewServeMux` over that collection fails at construction time
(`ServeMux.Handle` = `net/http.ServeMux.Handle` panics on the duplicate,
embedded as `Except.error`), so no mux is ever produced and no handler
silently overrides the other.  Construction runs while fx builds the object
graph, before the `OnStart` hook can start the server. -/
theorem claim_C3_duplicate_pattern_fails {H : Type} (routes : List (Route H))
    (i j : Fin (routes.map Route.pattern).length) (hij : i ≠ j)
    (heq : (routes.map Route.pattern).get i = (routes.map Route.pattern).get j) :
    ∃ e, NewServeMux routes = Except.error e := by
  apply NewServeMux_error_of_dup
  intro hnd
  exact hij (hnd.get_inj_iff.1 heq)

/-- Witness for C3 at a concrete duplicate collection. -/
theorem claim_C3_witness :
    ∃ e, NewServeMux
        [Route.mk EchoHandler.Pattern AppHandler.echo,
         Route.mk EchoHandler.Pattern AppHandler.hello]
      = Except.error e :=
  claim_C3_duplicate_pattern_fails _ ⟨0, by decide⟩ ⟨1, by decide⟩
    (by decide) (by decide)

/-- C4.  For every request to `/hello` whose body read fails, the handler
logs an error and responds with status 500 and the fixed body
`"Internal server error\n"`: the response does not depend on the underlying
error (last conjunct), in particular it never carries the error's message,
and the greeting (`"Hello, "...`) is not written — the body does not even
start with it. -/
theorem claim_C4_hello_read_failure (e : IOErr) (writeFail : Option (Nat × IOErr)) :
    HelloHandler.ServeHTTP (Except.error e) writeFail emptyResp
        = ({ status := some 500, body := internalServerError ++ [10] },
           [⟨LogLevel.error, "Failed to read request"⟩])
      ∧ ¬ helloHead <+: internalServerError ++ [10]
      ∧ ∀ e' : IOErr,
          HelloHandler.ServeHTTP (Except.error e') writeFail emptyResp
            = HelloHandler.ServeHTTP (Except.error e) writeFail emptyResp :=
  ⟨rfl, by decide, fun _e' => rfl⟩

/-- C5.  For every request to `/echo` whose body read or response write
fails (after `k` bytes were copied), the handler logs exactly one warning
and returns: the response body is just the already-copied prefix of the
request body — no crafted error body is appended — and the handler
terminates normally (it is a total function into the same result type as
the success path, so the failure never propagates out of `ServeHTTP`). -/
theorem claim_C5_echo_io_failure (B : List Nat) (k : Nat) (e : IOErr) :
    (EchoHandler.ServeHTTP B (some (k, e)) emptyResp).2
        = [⟨LogLevel.warn, "Failed to handle request"⟩]
      ∧ (EchoHandler.ServeHTTP B (some (k, e)) emptyResp).1.body = B.take k
      ∧ (EchoHandler.ServeHTTP B (some (k, e)) emptyResp).1.body <+: B := by
  have hbody : (EchoHandler.ServeHTTP B (some (k, e)) emptyResp).1.body = B.take k := by
    by_cases h : (B.take k).isEmpty
    · simp [EchoHandler.ServeHTTP, writeBytes, h, emptyResp, List.isEmpty_iff.1 h]
    · simp [EchoHandler.ServeHTTP, writeBytes, h, emptyResp]
  exact ⟨rfl, hbody, hbody ▸ List.take_prefix k B⟩

/-- C6.  For every invocation of the `OnStart` hook in which
`net.Listen` fails, the hook returns that very error to its caller (fx),
emits no start log entry, and does not start the accept loop
(`go srv.Serve(ln)` is never reached): no partially-initialized running
state. -/
theorem claim_C6_bind_failure (e : IOErr) :
    (OnStart (Except.error e)).returned = some e
      ∧ (OnStart (Except.error e)).logs = []
      ∧ (OnStart (Except.error e)).accepting = false :=
  ⟨rfl, rfl, rfl⟩

/-- C7.  For every invocation of the `OnStop` hook with a
deadline/cancellation context, the hook is exactly one call to
`srv.Shutdown(ctx)`: the server stops accepting new connections, and the
hook's return value is precisely the underlying shutdown result — `none`
when the in-flight requests drain in time, the context's error otherwise. -/
theorem claim_C7_stop_delegates (s : SrvState) (ctx : ShutdownCtx) :
    OnStop s ctx = Server.Shutdown s ctx
      ∧ (OnStop s ctx).1.acceptingNew = false
      ∧ (OnStop s ctx).2 = (if ctx.drained then none else some ctx.ctxErr) :=
  ⟨rfl, rfl, rfl⟩

/-- C8.  `NewServeMux` accepts any collection of handlers without
special-casing: the empty collection yields a valid mux with no
registrations, under which every request path is answered by the default
`NotFoundHandler` with status 404; and in general every supplied handler is
registered at its own `Pattern()` (the registrations of a successfully
built mux are exactly the supplied `(pattern, handler)` pairs). -/
theorem claim_C8_zero_one_many {H : Type} :
    NewServeMux ([] : List (Route H)) = Except.ok ⟨[]⟩
      ∧ (∀ (run : H → Nat × List Nat) (path : List Char),
          ServeMux.serve ⟨[]⟩ run path = (404, notFoundBody))
      ∧ ∀ (routes : List (Route H)) (m : ServeMux H),
          NewServeMux routes = Except.ok m →
            m.regs = routes.map fun r => (r.pattern, r.handler) :=
  ⟨rfl, fun _run _path => rfl, fun _routes _m hm => NewServeMux_ok_regs hm⟩

/-- Witness for C8: its registration statement applied to the concrete
routes of `main`. -/
theorem claim_C8_witness :
    appMux.regs = appRoutes.map fun r => (r.pattern, r.handler) :=
  (claim_C8_zero_one_many (H := AppHandler)).2.2 appRoutes appMux rfl

/-- C9.  For every collection of handlers with pairwise-distinct (and, as
`Handle` requires, nonempty) patterns and every permutation of that
collection, `NewServeMux` succeeds on both orders and the two muxes route
identically: every path is dispatched to the same handler. -/
theorem claim_C9_order_irrelevant {H : Type} (routes₁ routes₂ : List (Route H))
    (hperm : routes₁.Perm routes₂)
    (hne : ∀ r ∈ routes₁, r.pattern ≠ [])
    (hnd : (routes₁.map Route.pattern).Nodup) :
    ∃ m₁ m₂, NewServeMux routes₁ = Except.ok m₁
      ∧ NewServeMux routes₂ = Except.ok m₂
      ∧ ∀ path, m₁.dispatch path = m₂.dispatch path := by
  have hne₂ : ∀ r ∈ routes₂, r.pattern ≠ [] :=
    fun r hr => hne r (hperm.symm.subset hr)
  have hnd₂ : (routes₂.map Route.pattern).Nodup :=
    (hperm.map Route.pattern).nodup_iff.1 hnd
  refine ⟨_, _, NewServeMux_ok_of_nodup hne hnd, NewServeMux_ok_of_nodup hne₂ hnd₂, ?_⟩
  intro path
  unfold ServeMux.dispatch
  have hfind := findHandler_perm
    (hperm.map (fun r => (r.pattern, r.handler)))
    (by simpa [List.map_map, Function.comp] using hnd) path
  rw [hfind]

/-- Witness for C9: the two routes of `main`, in both orders. -/
theorem claim_C9_witness :
    ∃ m₁ m₂,
      NewServeMux [Route.mk EchoHandler.Pattern AppHandler.echo,
                   Route.mk HelloHandler.Pattern AppHandler.hello]
          = Except.ok m₁
      ∧ NewServeMux [Route.mk HelloHandler.Pattern AppHandler.hello,
                     Route.mk EchoHandler.Pattern AppHandler.echo]
          = Except.ok m₂
      ∧ ∀ path, m₁.dispatch path = m₂.dispatch path :=
  claim_C9_order_irrelevant _ _ (List.Perm.swap _ _ _) (by decide) (by decide)

/-- C10 (implicit).  The `/hello` handler imposes no text/encoding
restriction: for every byte sequence `B` that is read successfully —
including the empty sequence and sequences that are not valid UTF-8, such
as the lone byte 255 — the response body is exactly the bytes
`"Hello, " ++ B ++ "\n"`; in particular an empty request body yields
`"Hello, \n"`. -/
theorem claim_C10_hello_no_encoding_restriction :
    (∀ B : List Nat, HelloHandler.ServeHTTP (Except.ok B) none emptyResp
        = ({ status := some 200, body := helloHead ++ B ++ [10] }, []))
      ∧ HelloHandler.ServeHTTP (Except.ok []) none emptyResp
          = ({ status := some 200, body := asciiBytes "Hello, \n" }, [])
      ∧ HelloHandler.ServeHTTP (Except.ok [255]) none emptyResp
          = ({ status := some 200, body := helloHead ++ [255] ++ [10] }, []) :=
  ⟨fun _B => rfl, by decide, rfl⟩
